import Mathlib

/-!
Shallow embedding of `src/pkg/cluster/internal/create/nodes.go` (package `create`
of the kind repository) and verification of its specification.

Modelling conventions:
* Go errors are modelled by their message strings (`github.com/pkg/errors`:
  `errors.Errorf` builds a message, `errors.Wrapf` prepends `"msg: "` to the
  wrapped error's message).
* The external collaborators (package `nodes`, `constants`, `config`, `cri`,
  `fmt`, `sort`) are not under `src/`; they are modelled at their boundary:
  node handles carry outcome oracles for the per-node operations, creation
  operations are oracle fields of `CreateOps`, `fmt.Sprintf("%d", n)` is the
  standard decimal representation, and `sort.SliceStable` is a stable sort by
  the given comparison (any two stable sorts for the same total preorder agree,
  so insertion sort is used).
* Machine integers (`int`, `int32`) are modelled as `Int`/`Nat`; every use in
  this file (slice indices, replica loop bounds, rank values) stays far from
  the 32/64-bit overflow boundary, so no wrap-around modelling is needed.
* The concurrent fan-out/fan-in of `createNodeContainers` is modelled by
  quantifying over the arrival order of task outcomes on the two channels:
  `collectLoop` is the body of the `for/select` collection loop, reading the
  merged arrival sequence; a `none` result means the loop blocks forever
  (nothing further will ever be sent).
-/

namespace KindCreate

/-- Go errors, modelled by their message strings. -/
abbrev GoErr := String

/-- `cri.Mount` (external package `container/cri`); carried only as payload. -/
structure Mount where
  containerPath : String
  hostPath : String
  deriving DecidableEq, Repr

/-- `config.Node` (external package `cluster/config`), the fields read by this
file: `Role` (a string-typed role), `Image`, `ExtraMounts`, and `Replicas`
(`*int32`, modelled as `Option Int`). -/
structure ConfigNode where
  role : String
  image : String
  extraMounts : List Mount
  replicas : Option Int
  deriving DecidableEq, Repr

/-- `config.Config`: the field read by this file is the ordered node list. -/
structure Config where
  nodes : List ConfigNode
  deriving DecidableEq, Repr

/-- Modelled from the spec: the role constants live in the external package
`cluster/constants`, which is not under `src/`. The spec fixes the closed role
set {ExternalLoadBalancer, ExternalEtcd, ControlPlane, Worker} and its naming
example fixes the worker value as the string `"worker"`; the remaining values
are the kebab-case role names. Only their distinctness and their concrete
characters (for name-collision analysis) matter below. -/
def ExternalLoadBalancerNodeRoleValue : String := "external-load-balancer"

/-- Modelled from the spec: see `ExternalLoadBalancerNodeRoleValue`. -/
def ExternalEtcdNodeRoleValue : String := "external-etcd"

/-- Modelled from the spec: see `ExternalLoadBalancerNodeRoleValue`. -/
def ControlPlaneNodeRoleValue : String := "control-plane"

/-- Modelled from the spec: see `ExternalLoadBalancerNodeRoleValue`. -/
def WorkerNodeRoleValue : String := "worker"

/-- `defaultRoleOrder`: provisioning order for nodes by role. -/
def defaultRoleOrder : List String :=
  [ExternalLoadBalancerNodeRoleValue,
   ExternalEtcdNodeRoleValue,
   ControlPlaneNodeRoleValue,
   WorkerNodeRoleValue]

/-- The loop `for i, role := range roleOrder { orderMap[role] = i }` of
`makeRoleToOrder`: builds the map from role to index, a later duplicate entry
overwriting an earlier one, starting from map `m` at index `i`. -/
def buildOrderMap : List String → Nat → (String → Option Nat) → (String → Option Nat)
  | [], _, m => m
  | role :: rest, i, m =>
      buildOrderMap rest (i + 1) (fun s => if s = role then some i else m s)

/-- `makeRoleToOrder`: converts an ordered slice of roles to a rank function;
a role absent from the map gets the sentinel rank 10000. Ranks are Go `int`s
that are always non-negative here, so they are modelled as `Nat`. -/
def makeRoleToOrder (roleOrder : List String) : String → Nat :=
  fun role => (buildOrderMap roleOrder 0 (fun _ => none) role).getD 10000

/-- The comparison underlying `sortNodes`: Go's `sort.SliceStable` receives the
strict `less(i, j) = rank(role i) < rank(role j)`; a stable sort for that
`less` is exactly a stable sort for the non-strict total preorder below. -/
def sortNodesLe (roleOrder : List String) (a b : ConfigNode) : Prop :=
  makeRoleToOrder roleOrder a.role ≤ makeRoleToOrder roleOrder b.role

instance (roleOrder : List String) : DecidableRel (sortNodesLe roleOrder) :=
  fun a b =>
    Nat.decLe (makeRoleToOrder roleOrder a.role) (makeRoleToOrder roleOrder b.role)

/-- `sortNodes`: sorts nodes for provisioning with `sort.SliceStable`.
The stable sort of a list by a total preorder is unique, so `sort.SliceStable`
is modelled by insertion sort (which is stable). -/
def sortNodes (nodes : List ConfigNode) (roleOrder : List String) : List ConfigNode :=
  List.insertionSort (sortNodesLe roleOrder) nodes

/-- `node.DeepCopy()` followed by `outNode.Replicas = nil`: the generated
DeepCopy copies every sub-structure (in particular the ExtraMounts slice), so
at the value level it is the identity; the replica field is then cleared. -/
def clearReplicas (n : ConfigNode) : ConfigNode :=
  ⟨n.role, n.image, n.extraMounts, none⟩

/-- `convertReplicas`: for each node, `replicas := 1`, overridden by
`*node.Replicas` when set; the loop `for i := int32(0); i < replicas; i++`
appends `replicas.toNat` cleared deep copies (zero when `replicas ≤ 0`). -/
def convertReplicas (nodes : List ConfigNode) : List ConfigNode :=
  nodes.foldl
    (fun out node =>
      let replicas : Int := node.replicas.getD 1
      out ++ List.replicate replicas.toNat (clearReplicas node))
    []

/-- Little-endian decimal digit characters of `n`, with explicit structural
fuel (any `fuel ≥ n` gives the full digit string). -/
def decCharsLE : Nat → Nat → List Char
  | _, 0 => []
  | 0, _ + 1 => []
  | fuel + 1, n + 1 => Nat.digitChar ((n + 1) % 10) :: decCharsLE fuel ((n + 1) / 10)

/-- Modelled from the spec: `fmt.Sprintf("%d", n)` (Go standard library, not
under `src/`) is the standard decimal representation of `n`. -/
def natRepr (n : Nat) : String :=
  if n = 0 then "0" else String.mk (decCharsLE n n).reverse

/-- One call of the closure returned by `makeNodeNamer`: Go keeps
`counter map[string]int`; since every stored count is at least 1, the map is
modelled as a total function where value 0 means "key absent". The call
computes `count := 1`, adds the stored value when present (setting the suffix
to `Sprintf("%d", count)`), stores `count` back, and returns
`Sprintf("%s-%s%s", clusterName, role, suffix)` with the updated counter. -/
def nameNodeGo (clusterName : String) (counter : String → Nat) (role : String) :
    String × (String → Nat) :=
  let prev := counter role
  let count := 1 + prev
  let suffix := if prev = 0 then "" else natRepr count
  (clusterName ++ "-" ++ role ++ suffix,
   fun r => if r = role then count else counter r)

/-- `nodeSpec`: describes a node to create purely from the container aspect. -/
structure nodeSpec where
  Name : String
  Role : String
  Image : String
  ExtraMounts : List Mount
  deriving DecidableEq, Repr

/-- The loop of `nodesToCreate` over the sorted config nodes: names each node
with the stateful namer and builds the `nodeSpec` list. -/
def buildSpecs (clusterName : String) (counter : String → Nat) :
    List ConfigNode → List nodeSpec
  | [] => []
  | configNode :: rest =>
      let p := nameNodeGo clusterName counter configNode.role
      ⟨p.1, configNode.role, configNode.image, configNode.extraMounts⟩ ::
        buildSpecs clusterName p.2 rest

/-- `nodesToCreate`: fresh namer, replica conversion, stable sort by
`defaultRoleOrder`, then the naming loop. -/
def nodesToCreate (cfg : Config) (clusterName : String) : List nodeSpec :=
  buildSpecs clusterName (fun _ => 0)
    (sortNodes (convertReplicas cfg.nodes) defaultRoleOrder)

/-- A handle to a created node (external `nodes.Node`), together with outcome
oracles for the per-node external operations invoked by `fixupNode`:
`waitForDocker` is the boolean outcome of the bounded readiness poll (ready
before the 30-second deadline or not); real time is abstracted into it. -/
structure NodeH where
  name : String
  fixMounts : Except GoErr Unit
  setProxy : Except GoErr Unit
  signalStart : Except GoErr Unit
  waitForDocker : Bool
  loadImages : Except GoErr Unit

/-- A record of one invocation of an external creation operation, with its
arguments; used to observe which creation side effects `nodeSpec.Create`
performs. -/
inductive CreateCall where
  | externalLoadBalancer (name image clusterLabel : String)
  | controlPlane (name image clusterLabel : String) (extraMounts : List Mount)
  | worker (name image clusterLabel : String) (extraMounts : List Mount)
  deriving DecidableEq, Repr

/-- Oracles for the external creation operations of package `nodes` referenced
by `nodeSpec.Create` (`CreateExternalLoadBalancerNode`,
`CreateControlPlaneNode`, `CreateWorkerNode`). -/
structure CreateOps where
  createExternalLoadBalancerNode : String → String → String → Except GoErr NodeH
  createControlPlaneNode : String → String → String → List Mount → Except GoErr NodeH
  createWorkerNode : String → String → String → List Mount → Except GoErr NodeH

/-- `(d *nodeSpec) Create(clusterLabel)`: the `switch d.Role` dispatch. The
result pairs the list of external creation calls performed with the returned
node-or-error; the `default` branch performs no call and fails with
`errors.Errorf("unknown node role: %s", d.Role)`. -/
def nodeSpec.Create (ops : CreateOps) (d : nodeSpec) (clusterLabel : String) :
    List CreateCall × Except GoErr NodeH :=
  if d.Role = ExternalLoadBalancerNodeRoleValue then
    ([CreateCall.externalLoadBalancer d.Name d.Image clusterLabel],
      ops.createExternalLoadBalancerNode d.Name d.Image clusterLabel)
  else if d.Role = ControlPlaneNodeRoleValue then
    ([CreateCall.controlPlane d.Name d.Image clusterLabel d.ExtraMounts],
      ops.createControlPlaneNode d.Name d.Image clusterLabel d.ExtraMounts)
  else if d.Role = WorkerNodeRoleValue then
    ([CreateCall.worker d.Name d.Image clusterLabel d.ExtraMounts],
      ops.createWorkerNode d.Name d.Image clusterLabel d.ExtraMounts)
  else
    ([], Except.error ("unknown node role: " ++ d.Role))

/-- `fixupNode`: FixMounts (error returned verbatim), conditional SetProxy
(error wrapped by `errors.Wrapf(err, "failed to set proxy for node %s", ...)`),
SignalStart (error returned verbatim), WaitForDocker with a 30-second deadline
(timeout yields `errors.Errorf("timed out waiting for docker to be ready on
node %s", ...)`), then LoadImages whose result is discarded. `needProxy` is
the value of the global predicate `nodes.NeedProxy()`. -/
def fixupNode (needProxy : Bool) (node : NodeH) : Option GoErr :=
  match node.fixMounts with
  | Except.error e => some e
  | Except.ok _ =>
    let proxyStep : Option GoErr :=
      if needProxy then
        match node.setProxy with
        | Except.error e =>
            some ("failed to set proxy for node " ++ node.name ++ ": " ++ e)
        | Except.ok _ => none
      else none
    match proxyStep with
    | some e => some e
    | none =>
      match node.signalStart with
      | Except.error e => some e
      | Except.ok _ =>
        if !node.waitForDocker then
          some ("timed out waiting for docker to be ready on node " ++ node.name)
        else
          -- node.LoadImages() is called here and its result is discarded
          none

/-- The outcome one task goroutine of `createNodeContainers` delivers: the
goroutine runs `desiredNode.Create`, then `fixupNode`, and sends either the
first error to `errChan` or the finished node to `nodeChan`. -/
def taskOutcome (ops : CreateOps) (needProxy : Bool) (clusterLabel : String)
    (d : nodeSpec) : Except GoErr NodeH :=
  match (nodeSpec.Create ops d clusterLabel).2 with
  | Except.error e => Except.error e
  | Except.ok node =>
    match fixupNode needProxy node with
    | some e => Except.error e
    | none => Except.ok node

/-- The `for/select` collection loop of `createNodeContainers`, reading the
merged arrival sequence of the two channels: a node is appended to `allNodes`
and the loop returns success exactly when the count reaches `numDesired`; an
error returns `(nil, err)` immediately. An exhausted arrival sequence (`[]`)
means nothing will ever be sent again, so the `select` blocks forever: result
`none`. -/
def collectLoop (numDesired : Nat) (allNodes : List NodeH) :
    List (Except GoErr NodeH) → Option (Except GoErr (List NodeH))
  | [] => none
  | Except.ok node :: rest =>
      let allNodes2 := allNodes ++ [node]
      if allNodes2.length = numDesired then some (Except.ok allNodes2)
      else collectLoop numDesired allNodes2 rest
  | Except.error e :: _ => some (Except.error e)

/-- `nodeChan := make(chan *nodes.Node, len(desiredNodes))`: buffer capacity. -/
def nodeChanCapacity (numDesired : Nat) : Nat := numDesired

/-- `errChan := make(chan error)`: an unbuffered channel, capacity 0. -/
def errChanCapacity : Nat := 0

/-- Semantics of delivery on a Go buffered channel: `sends` send operations
all complete without blocking the senders exactly when every sent value finds
either a buffer slot or a completed receive, i.e. `sends ≤ cap + reads`. -/
def channelAbsorbs (cap reads sends : Nat) : Prop := sends ≤ cap + reads

/-- `msg` mentions the node name `nm`: `nm` occurs verbatim inside `msg`. -/
def mentionsStr (msg nm : String) : Prop := ∃ pre post, msg = pre ++ nm ++ post

/-- Modelled from the spec: the spec's error taxonomy (§7) has exactly one
configuration error relevant to replica expansion. -/
inductive ConfigError where
  | negativeReplicas
  deriving DecidableEq, Repr

/-- Modelled from the spec: §4.2 says replica expansion "Fails only if r is
negative (ConfigError)". The source's `convertReplicas` has no error path at
all; this definition follows the spec's words (fail exactly when some set
replica count is negative, otherwise expand) so the two can be compared. -/
def convertReplicasSpec (nodes : List ConfigNode) : Except ConfigError (List ConfigNode) :=
  if nodes.any (fun n => decide (n.replicas.getD 1 < 0)) then
    Except.error ConfigError.negativeReplicas
  else
    Except.ok (convertReplicas nodes)

/-!
Heap model for the frame claim about `nodesToCreate`: Go slice values are
references to cells of a store; `cfg.Nodes` is one cell, `convertReplicas`
allocates a fresh cell (`out := []config.Node{}` plus appends of deep copies),
and `sort.SliceStable` writes only the cell it is handed.
-/

/-- A store of slice cells; a Go slice value is an index into it. -/
abbrev Store := List (List ConfigNode)

/-- Dereference a slice. -/
def readSlice (s : Store) (i : Nat) : List ConfigNode := s.getD i []

/-- Overwrite the contents of a slice cell (in-place mutation). -/
def writeSlice (s : Store) (i : Nat) (v : List ConfigNode) : Store := s.set i v

/-- Allocate a fresh slice cell holding `v`, returning its reference. -/
def allocSlice (s : Store) (v : List ConfigNode) : Store × Nat :=
  (s ++ [v], s.length)

/-- `convertReplicas` at the store level: reads the source slice and allocates
a fresh output slice (it never writes an existing cell). -/
def convertReplicasH (s : Store) (src : Nat) : Store × Nat :=
  allocSlice s (convertReplicas (readSlice s src))

/-- `sortNodes` at the store level: `sort.SliceStable` mutates exactly the
slice cell it is handed. -/
def sortNodesH (s : Store) (i : Nat) (roleOrder : List String) : Store :=
  writeSlice s i (sortNodes (readSlice s i) roleOrder)

/-- `nodesToCreate` at the store level: replica conversion into a fresh slice,
in-place stable sort of that fresh slice, then the (read-only) naming loop. -/
def nodesToCreateH (s : Store) (cfgNodesId : Nat) (clusterName : String) :
    Store × List nodeSpec :=
  let p := convertReplicasH s cfgNodesId
  let s2 := sortNodesH p.1 p.2 defaultRoleOrder
  (s2, buildSpecs clusterName (fun _ => 0) (readSlice s2 p.2))

/-- A node handle whose external operations all succeed; used as a concrete
oracle value. -/
def trivialNode : NodeH :=
  ⟨"node", Except.ok (), Except.ok (), Except.ok (), true, Except.ok ()⟩

/-- Creation oracles that always succeed; used as a concrete input. -/
def trivialOps : CreateOps :=
  ⟨fun _ _ _ => Except.ok trivialNode,
   fun _ _ _ _ => Except.ok trivialNode,
   fun _ _ _ _ => Except.ok trivialNode⟩

/-- A config entry whose replica count is set to the negative value -1. -/
def negReplicaNode : ConfigNode := ⟨WorkerNodeRoleValue, "image", [], some (-1)⟩

/-- Whenever the collection loop returns, the result is all-or-nothing,
whatever the accumulator so far. -/
lemma collectLoop_some_cases (numDesired : Nat)
    (arrivals : List (Except GoErr NodeH)) :
    ∀ (acc : List NodeH) (res : Except GoErr (List NodeH)),
      collectLoop numDesired acc arrivals = some res →
      (∃ l, res = Except.ok l ∧ l.length = numDesired) ∨
        ∃ e, res = Except.error e := by
  induction arrivals with
  | nil => intro acc res h; simp [collectLoop] at h
  | cons a rest ih =>
    intro acc res h
    cases a with
    | ok node =>
      simp only [collectLoop] at h
      by_cases hl : (acc ++ [node]).length = numDesired
      · rw [if_pos hl, Option.some_inj] at h
        subst h
        exact Or.inl ⟨acc ++ [node], rfl, hl⟩
      · rw [if_neg hl] at h
        exact ih (acc ++ [node]) res h
    | error e =>
      simp only [collectLoop, Option.some_inj] at h
      subst h
      exact Or.inr ⟨e, rfl⟩

/-- When the remaining arrivals bring the total to `numDesired` and the count
has not been reached yet, the collection loop does return. -/
lemma collectLoop_total (numDesired : Nat)
    (arrivals : List (Except GoErr NodeH)) :
    ∀ acc : List NodeH, acc.length + arrivals.length = numDesired →
      acc.length < numDesired →
      ∃ res, collectLoop numDesired acc arrivals = some res := by
  induction arrivals with
  | nil => intro acc h hlt; simp at h; omega
  | cons a rest ih =>
    intro acc h hlt
    cases a with
    | ok node =>
      simp only [collectLoop]
      by_cases hl : (acc ++ [node]).length = numDesired
      · rw [if_pos hl]; exact ⟨_, rfl⟩
      · rw [if_neg hl]
        apply ih (acc ++ [node])
        · simp at h ⊢; omega
        · simp at hl ⊢; simp at h; omega
    | error e => exact ⟨Except.error e, rfl⟩

/-- Claim C1: whenever the collection loop of `createNodeContainers` returns,
it returns either exactly `numDesired` nodes and no error, or no nodes and
exactly one error — never a partial node list; and when each of the
`numDesired ≥ 1` tasks delivers its one outcome, the loop does return. -/
theorem collect_all_or_nothing (numDesired : Nat)
    (arrivals : List (Except GoErr NodeH)) :
    (∀ res, collectLoop numDesired [] arrivals = some res →
        (∃ l, res = Except.ok l ∧ l.length = numDesired) ∨
          ∃ e, res = Except.error e) ∧
    (arrivals.length = numDesired → 0 < numDesired →
        ∃ res, collectLoop numDesired [] arrivals = some res) := by
  constructor
  · intro res h
    exact collectLoop_some_cases numDesired arrivals [] res h
  · intro hlen hpos
    exact collectLoop_total numDesired arrivals [] (by simpa using hlen)
      (by simpa using hpos)

/-- Witness for C1 at a concrete one-task run. -/
theorem collect_all_or_nothing_witness :
    ((∃ l, (Except.ok [trivialNode] : Except GoErr (List NodeH)) = Except.ok l ∧
        l.length = 1) ∨
      ∃ e, (Except.ok [trivialNode] : Except GoErr (List NodeH)) = Except.error e) ∧
    ∃ res, collectLoop 1 [] [Except.ok trivialNode] = some res :=
  ⟨(collect_all_or_nothing 1 [Except.ok trivialNode]).1 (Except.ok [trivialNode]) rfl,
   (collect_all_or_nothing 1 [Except.ok trivialNode]).2 rfl (by omega)⟩

/-- Claim C3 (code bug): with an empty configuration, `nodesToCreate` yields
no specs, so no task goroutines are launched; but the collection loop, whose
completion check runs only after a node arrives, then blocks forever on its
two channels (result `none`) instead of returning an empty result. -/
theorem collect_empty_blocks :
    nodesToCreate ⟨[]⟩ "kind" = [] ∧ collectLoop 0 [] [] = none :=
  ⟨rfl, rfl⟩

/-- Counterexample for C4: the error channel is created unbuffered
(`make(chan error)`), so with two failing tasks and an orchestrator that stops
after reading the first failure, the second failing task's delivery is never
absorbed — it blocks forever. -/
theorem errchan_cannot_absorb_two_failures :
    ¬ channelAbsorbs errChanCapacity 1 2 := by
  unfold channelAbsorbs errChanCapacity
  omega

/-- Claim C4 as amended: the node channel is buffered to hold all `numDesired`
possible success deliveries, so success outcomes never block even if nobody
reads them; but the unbuffered error channel cannot absorb a second failure
outcome once the orchestrator has stopped after the first one. -/
theorem channel_absorption_corrected (numDesired successes : Nat)
    (h : successes ≤ numDesired) :
    channelAbsorbs (nodeChanCapacity numDesired) 0 successes ∧
      ¬ channelAbsorbs errChanCapacity 1 2 := by
  unfold channelAbsorbs nodeChanCapacity errChanCapacity
  omega

/-- Witness for the amended C4 at a concrete two-task run. -/
theorem channel_absorption_corrected_witness :
    channelAbsorbs (nodeChanCapacity 2) 0 2 ∧ ¬ channelAbsorbs errChanCapacity 1 2 :=
  channel_absorption_corrected 2 2 (by omega)

/-- Counterexample for C6: on an entry with replica count -1,
`convertReplicas` does not fail — it returns normally (the negative entry
just contributes zero copies) — whereas the spec's words demand a
configuration error exactly there. -/
theorem convert_replicas_negative_no_error :
    convertReplicas [negReplicaNode] = [] ∧
      convertReplicasSpec [negReplicaNode] =
        Except.error ConfigError.negativeReplicas :=
  ⟨rfl, rfl⟩

/-- Claim C6 as amended: `convertReplicas` has no error path at all; an entry
whose replica count is negative is silently skipped (zero copies), and every
input — negative counts included — returns normally. -/
theorem convert_replicas_negative_skipped (node : ConfigNode) (r : Int)
    (rest : List ConfigNode) (hset : node.replicas = some r) (hneg : r < 0) :
    convertReplicas (node :: rest) = convertReplicas rest := by
  unfold convertReplicas
  simp only [List.foldl_cons, hset, Option.getD_some]
  rw [Int.toNat_of_nonpos (Int.le_of_lt hneg)]
  simp

/-- Witness for the amended C6 at the concrete -1 entry. -/
theorem convert_replicas_negative_skipped_witness :
    convertReplicas [negReplicaNode] = convertReplicas [] :=
  convert_replicas_negative_skipped negReplicaNode (-1) [] rfl (by omega)

/-- Counterexample for C2: a spec whose role is ExternalEtcd — one of the four
known roles — is not dispatched to any creation operation: the `switch` has no
case for it, so it falls into the `default` branch, performs no creation call,
and fails with the invalid-role error. -/
theorem create_dispatch_etcd_invalid :
    nodeSpec.Create trivialOps
        ⟨"kind-external-etcd", ExternalEtcdNodeRoleValue, "image", []⟩ "label" =
      ([], Except.error "unknown node role: external-etcd") := rfl

/-- Claim C2 as amended: creation is dispatched via a mapping over the three
roles {ExternalLoadBalancer, ControlPlane, Worker}, each invoking exactly its
corresponding creation operation; every other role — ExternalEtcd included —
fails immediately with the invalid-role error and performs no creation call. -/
theorem create_dispatch_three_roles (ops : CreateOps)
    (name image clusterLabel role : String) (mounts : List Mount) :
    (nodeSpec.Create ops ⟨name, ExternalLoadBalancerNodeRoleValue, image, mounts⟩
        clusterLabel =
      ([CreateCall.externalLoadBalancer name image clusterLabel],
        ops.createExternalLoadBalancerNode name image clusterLabel)) ∧
    (nodeSpec.Create ops ⟨name, ControlPlaneNodeRoleValue, image, mounts⟩
        clusterLabel =
      ([CreateCall.controlPlane name image clusterLabel mounts],
        ops.createControlPlaneNode name image clusterLabel mounts)) ∧
    (nodeSpec.Create ops ⟨name, WorkerNodeRoleValue, image, mounts⟩ clusterLabel =
      ([CreateCall.worker name image clusterLabel mounts],
        ops.createWorkerNode name image clusterLabel mounts)) ∧
    (role ≠ ExternalLoadBalancerNodeRoleValue → role ≠ ControlPlaneNodeRoleValue →
      role ≠ WorkerNodeRoleValue →
      nodeSpec.Create ops ⟨name, role, image, mounts⟩ clusterLabel =
        ([], Except.error ("unknown node role: " ++ role))) := by
  refine ⟨rfl, rfl, rfl, ?_⟩
  intro h1 h2 h3
  unfold nodeSpec.Create
  rw [if_neg h1, if_neg h2, if_neg h3]

/-- Witness for the amended C2: the unknown role "edge" yields the
invalid-role error and no creation call. -/
theorem create_dispatch_three_roles_witness :
    nodeSpec.Create trivialOps ⟨"kind-edge", "edge", "image", []⟩ "label" =
      ([], Except.error ("unknown node role: " ++ "edge")) :=
  (create_dispatch_three_roles trivialOps "kind-edge" "image" "label" "edge"
    []).2.2.2 (by decide) (by decide) (by decide)

/-- A node handle whose FixMounts fails with a message that does not contain
the node's name. -/
def fixMountsFailNode : NodeH :=
  ⟨"kind-worker", Except.error "boom", Except.ok (), Except.ok (), true,
   Except.ok ()⟩

/-- Counterexample for C5: a FixMounts failure is delivered verbatim
(`return err`, no wrapping), so the error reaching the orchestrator does not
mention the offending node's name at all. -/
theorem fixmounts_error_not_named :
    fixupNode false fixMountsFailNode = some "boom" ∧
      ¬ mentionsStr "boom" "kind-worker" := by
  refine ⟨rfl, ?_⟩
  rintro ⟨pre, post, h⟩
  have hlen := congrArg String.length h
  rw [String.length_append, String.length_append] at hlen
  have h1 : "boom".length = 4 := rfl
  have h2 : "kind-worker".length = 11 := rfl
  omega

/-- Claim C5 as amended: only the SetProxy failure (wrapped with the node
name) and the readiness timeout (whose message names the node) are annotated
with the offending node's name; FixMounts and SignalStart failures are
propagated verbatim, unannotated. -/
theorem fixup_error_name_reporting (needProxy : Bool) (node : NodeH) (e : GoErr) :
    (node.fixMounts = Except.error e → fixupNode needProxy node = some e) ∧
    (node.fixMounts = Except.ok () → node.setProxy = Except.error e →
      fixupNode true node =
          some ("failed to set proxy for node " ++ node.name ++ ": " ++ e) ∧
        mentionsStr ("failed to set proxy for node " ++ node.name ++ ": " ++ e)
          node.name) ∧
    (node.fixMounts = Except.ok () →
      (needProxy = true → node.setProxy = Except.ok ()) →
      node.signalStart = Except.error e → fixupNode needProxy node = some e) ∧
    (node.fixMounts = Except.ok () →
      (needProxy = true → node.setProxy = Except.ok ()) →
      node.signalStart = Except.ok () → node.waitForDocker = false →
      fixupNode needProxy node =
          some ("timed out waiting for docker to be ready on node " ++ node.name) ∧
        mentionsStr
          ("timed out waiting for docker to be ready on node " ++ node.name)
          node.name) := by
  refine ⟨?_, ?_, ?_, ?_⟩
  · intro hfm
    simp [fixupNode, hfm]
  · intro hfm hsp
    refine ⟨by simp [fixupNode, hfm, hsp], ?_⟩
    exact ⟨"failed to set proxy for node ", ": " ++ e,
      (String.append_assoc _ _ _)⟩
  · intro hfm hsp hss
    cases needProxy with
    | false => simp [fixupNode, hfm, hss]
    | true => simp [fixupNode, hfm, hsp rfl, hss]
  · intro hfm hsp hss hwd
    constructor
    · cases needProxy with
      | false => simp [fixupNode, hfm, hss, hwd]
      | true => simp [fixupNode, hfm, hsp rfl, hss, hwd]
    · exact ⟨"timed out waiting for docker to be ready on node ", "",
        (String.append_empty _).symm⟩

/-- Witness for the amended C5 at the concrete FixMounts-failing node. -/
theorem fixup_error_name_reporting_witness :
    fixupNode false fixMountsFailNode = some "boom" :=
  (fixup_error_name_reporting false fixMountsFailNode "boom").1 rfl

/-- The replica-expansion fold, started from any accumulator, appends the
flattened per-entry expansions. -/
lemma convertReplicas_foldl (ns : List ConfigNode) :
    ∀ acc : List ConfigNode,
      ns.foldl
          (fun out node =>
            out ++
              List.replicate ((node.replicas.getD 1 : Int)).toNat
                (clearReplicas node))
          acc =
        acc ++
          ns.flatMap
            (fun n =>
              List.replicate ((n.replicas.getD 1 : Int)).toNat (clearReplicas n)) := by
  induction ns with
  | nil => intro acc; simp
  | cons n rest ih => intro acc; simp [ih]

/-- `convertReplicas` in closed form: each entry contributes its replica-many
cleared copies, contiguously, in input order. -/
lemma convertReplicas_eq_flatMap (nodes : List ConfigNode) :
    convertReplicas nodes =
      nodes.flatMap
        (fun n =>
          List.replicate ((n.replicas.getD 1 : Int)).toNat (clearReplicas n)) := by
  have h := convertReplicas_foldl nodes []
  simpa [convertReplicas] using h

/-- Claim C7: with all replica counts non-negative (unset counting as 1),
expansion yields, contiguously and in input order, exactly `r` cleared copies
per entry, for a total of `r_1 + ... + r_k` output entries, each with its
replica field cleared. Copies are value-level deep copies (`DeepCopy` copies
every sub-structure, so no mutable sub-structure is shared). -/
theorem convert_replicas_expansion (nodes : List ConfigNode)
    (h : ∀ n ∈ nodes, 0 ≤ n.replicas.getD 1) :
    convertReplicas nodes =
      nodes.flatMap
        (fun n =>
          List.replicate ((n.replicas.getD 1 : Int)).toNat (clearReplicas n)) ∧
    ((convertReplicas nodes).length : Int) =
      (nodes.map (fun n => n.replicas.getD 1)).sum ∧
    ∀ m ∈ convertReplicas nodes, m.replicas = none := by
  refine ⟨convertReplicas_eq_flatMap nodes, ?_, ?_⟩
  · rw [convertReplicas_eq_flatMap]
    have hlen :
        (nodes.flatMap
            (fun n =>
              List.replicate ((n.replicas.getD 1 : Int)).toNat
                (clearReplicas n))).length =
          (nodes.map (fun n => ((n.replicas.getD 1 : Int)).toNat)).sum := by
      simp [List.flatMap, List.map_map, Function.comp_def]
    have hcast :
        nodes.map (fun n => (((n.replicas.getD 1 : Int)).toNat : Int)) =
          nodes.map (fun n => n.replicas.getD 1) :=
      List.map_congr_left (fun n hn => Int.toNat_of_nonneg (h n hn))
    rw [hlen, Nat.cast_list_sum, List.map_map]
    exact congrArg List.sum hcast
  · intro m hm
    rw [convertReplicas_eq_flatMap] at hm
    simp only [List.mem_flatMap, List.mem_replicate] at hm
    obtain ⟨n, -, -, rfl⟩ := hm
    rfl

/-- A concrete two-entry configuration node list with replica counts 2 and
unset. -/
def sampleNodes : List ConfigNode :=
  [⟨WorkerNodeRoleValue, "img", [], some 2⟩,
   ⟨ControlPlaneNodeRoleValue, "img", [], none⟩]

/-- Witness for C7 at a concrete two-entry configuration. -/
theorem convert_replicas_expansion_witness :
    convertReplicas sampleNodes =
      sampleNodes.flatMap
        (fun n =>
          List.replicate ((n.replicas.getD 1 : Int)).toNat (clearReplicas n)) ∧
    ((convertReplicas sampleNodes).length : Int) =
      (sampleNodes.map (fun n => n.replicas.getD 1)).sum ∧
    ∀ m ∈ convertReplicas sampleNodes, m.replicas = none :=
  convert_replicas_expansion sampleNodes (by decide)

/-- Claim C10: `nodesToCreate` never mutates the configuration it is given:
in the store model, every slice cell that existed before the call — in
particular the one holding `cfg.Nodes` — holds the same value afterwards,
because expansion deep-copies into a freshly allocated slice and the in-place
stable sort writes only that fresh slice. -/
theorem nodes_to_create_frame (s : Store) (i : Nat) (clusterName : String)
    (h : i < s.length) :
    readSlice (nodesToCreateH s i clusterName).1 i = readSlice s i := by
  simp only [nodesToCreateH, convertReplicasH, sortNodesH, allocSlice,
    writeSlice, readSlice]
  rw [List.getD_eq_getElem?_getD, List.getD_eq_getElem?_getD]
  rw [List.getElem?_set_ne (show s.length ≠ i from (Nat.ne_of_lt h).symm)]
  rw [List.getElem?_append_left h]

/-- Witness for C10 at a concrete one-slice store. -/
theorem nodes_to_create_frame_witness :
    readSlice (nodesToCreateH [[negReplicaNode]] 0 "kind").1 0 =
      readSlice [[negReplicaNode]] 0 :=
  nodes_to_create_frame [[negReplicaNode]] 0 "kind" (by simp)

/-- A role not in the order list is looked up in the initial map. -/
lemma buildOrderMap_not_mem (ro : List String) :
    ∀ (i : Nat) (m : String → Option Nat) (r : String), r ∉ ro →
      buildOrderMap ro i m r = m r := by
  induction ro with
  | nil => intro i m r _; rfl
  | cons role rest ih =>
    intro i m r hr
    have hne : r ≠ role := fun hcontra => hr (List.mem_cons.mpr (Or.inl hcontra))
    have hnr : r ∉ rest := fun hcontra => hr (List.mem_cons.mpr (Or.inr hcontra))
    simp only [buildOrderMap]
    rw [ih (i + 1) _ r hnr]
    simp [hne]

/-- A role in the order list is assigned some index below the running index
plus the list length. -/
lemma buildOrderMap_mem (ro : List String) :
    ∀ (i : Nat) (m : String → Option Nat) (r : String), r ∈ ro →
      ∃ j, buildOrderMap ro i m r = some j ∧ i ≤ j ∧ j < i + ro.length := by
  induction ro with
  | nil => intro i m r hr; simp at hr
  | cons role rest ih =>
    intro i m r hr
    by_cases hmem : r ∈ rest
    · obtain ⟨j, hj, hij, hlt⟩ :=
        ih (i + 1) (fun s => if s = role then some i else m s) r hmem
      refine ⟨j, ?_, by omega, ?_⟩
      · simpa only [buildOrderMap] using hj
      · simp only [List.length_cons]; omega
    · have hrole : r = role := by
        rcases List.mem_cons.mp hr with h | h
        · exact h
        · exact absurd h hmem
      refine ⟨i, ?_, Nat.le_refl i, ?_⟩
      · simp only [buildOrderMap]
        rw [buildOrderMap_not_mem rest (i + 1) _ r hmem]
        simp [hrole]
      · simp only [List.length_cons]; omega

/-- Rank of a listed role, when the order list is short enough. -/
lemma makeRoleToOrder_mem (ro : List String) (r : String) (hr : r ∈ ro)
    (hlen : ro.length ≤ 10000) : makeRoleToOrder ro r < 10000 := by
  obtain ⟨j, hj, -, hlt⟩ := buildOrderMap_mem ro 0 (fun _ => none) r hr
  unfold makeRoleToOrder
  rw [hj]
  simp only [Option.getD_some]
  omega

/-- Rank of an unlisted role: the sentinel 10000. -/
lemma makeRoleToOrder_not_mem (ro : List String) (r : String) (hr : r ∉ ro) :
    makeRoleToOrder ro r = 10000 := by
  unfold makeRoleToOrder
  rw [buildOrderMap_not_mem ro 0 (fun _ => none) r hr]
  rfl

/-- In a replicated one-role order list, the rank fold assigns the last
index. -/
lemma buildOrderMap_replicate (r : String) :
    ∀ (n i : Nat) (m : String → Option Nat),
      buildOrderMap (List.replicate (n + 1) r) i m r = some (i + n) := by
  intro n
  induction n with
  | zero => intro i m; simp [buildOrderMap]
  | succ k ih =>
    intro i m
    have hstep : buildOrderMap (List.replicate (k + 1 + 1) r) i m r
        = buildOrderMap (List.replicate (k + 1) r) (i + 1)
            (fun s => if s = r then some i else m s) r := rfl
    rw [hstep, ih (i + 1) (fun s => if s = r then some i else m s)]
    congr 1
    omega

/-- Counterexample for C9: with a role-order list of length 10001 (the role
"a" repeated, so its assigned rank is its last index, 10000), the listed role
"a" gets rank 10000 — not strictly below the sentinel rank of the absent role
"b" — and `sortNodes` then leaves a spec with the unlisted role "b" in front
of a spec with the listed role "a". -/
theorem role_order_sentinel_collision :
    "a" ∈ List.replicate 10001 "a" ∧
    makeRoleToOrder (List.replicate 10001 "a") "a" = 10000 ∧
    makeRoleToOrder (List.replicate 10001 "a") "b" = 10000 ∧
    sortNodes [⟨"b", "img", [], none⟩, ⟨"a", "img", [], none⟩]
        (List.replicate 10001 "a") =
      [⟨"b", "img", [], none⟩, ⟨"a", "img", [], none⟩] := by
  have hb : "b" ∉ List.replicate 10001 "a" :=
    fun h => absurd (List.eq_of_mem_replicate h) (by decide)
  have hrank_a : makeRoleToOrder (List.replicate 10001 "a") "a" = 10000 := by
    unfold makeRoleToOrder
    rw [show (10001 : Nat) = 10000 + 1 from rfl, buildOrderMap_replicate "a" 10000 0]
    rfl
  have hrank_b : makeRoleToOrder (List.replicate 10001 "a") "b" = 10000 :=
    makeRoleToOrder_not_mem _ _ hb
  refine ⟨List.mem_replicate.mpr ⟨by omega, rfl⟩, hrank_a, hrank_b, ?_⟩
  have hle : sortNodesLe (List.replicate 10001 "a")
      ⟨"b", "img", [], none⟩ ⟨"a", "img", [], none⟩ := by
    unfold sortNodesLe
    rw [hrank_a, hrank_b]
  simp only [sortNodes, List.insertionSort, List.orderedInsert, if_pos hle]

/-- Claim C9 as amended: for every role-order list of length at most 10000
(the only list the program uses, `defaultRoleOrder`, has length 4), every
listed role ranks strictly below the sentinel rank 10000 of every unlisted
role, and after `sortNodes` no spec with an unlisted role precedes a spec
with a listed role. -/
theorem role_order_sentinel_bounded (roleOrder : List String)
    (hlen : roleOrder.length ≤ 10000) :
    (∀ r ∈ roleOrder, makeRoleToOrder roleOrder r < 10000) ∧
    (∀ q, q ∉ roleOrder → makeRoleToOrder roleOrder q = 10000) ∧
    (∀ r ∈ roleOrder, ∀ q, q ∉ roleOrder →
      makeRoleToOrder roleOrder r < makeRoleToOrder roleOrder q) ∧
    ∀ ns : List ConfigNode,
      (sortNodes ns roleOrder).Pairwise
        (fun a b => a.role ∉ roleOrder → b.role ∉ roleOrder) := by
  have h1 : ∀ r ∈ roleOrder, makeRoleToOrder roleOrder r < 10000 :=
    fun r hr => makeRoleToOrder_mem roleOrder r hr hlen
  have h2 : ∀ q, q ∉ roleOrder → makeRoleToOrder roleOrder q = 10000 :=
    fun q hq => makeRoleToOrder_not_mem roleOrder q hq
  refine ⟨h1, h2, fun r hr q hq => by rw [h2 q hq]; exact h1 r hr, ?_⟩
  intro ns
  have hsorted : (sortNodes ns roleOrder).Pairwise (sortNodesLe roleOrder) := by
    haveI : IsTotal ConfigNode (sortNodesLe roleOrder) :=
      ⟨fun a b => Nat.le_total _ _⟩
    haveI : IsTrans ConfigNode (sortNodesLe roleOrder) :=
      ⟨fun _ _ _ hab hbc => Nat.le_trans hab hbc⟩
    exact List.sorted_insertionSort _ ns
  refine hsorted.imp ?_
  intro a b hab ha
  by_contra hb
  have hblt := h1 b.role hb
  have ha10000 := h2 a.role ha
  unfold sortNodesLe at hab
  omega

/-- Witness for the amended C9 at the program's own role order. -/
theorem role_order_sentinel_bounded_witness :
    makeRoleToOrder defaultRoleOrder WorkerNodeRoleValue < 10000 :=
  (role_order_sentinel_bounded defaultRoleOrder (by decide)).1
    WorkerNodeRoleValue (by decide)

/-- Numeric value of a decimal digit character. -/
def charDigit (c : Char) : Nat := c.toNat - 48

/-- `charDigit` inverts `Nat.digitChar` on single digits. -/
lemma charDigit_digitChar : ∀ d < 10, charDigit (Nat.digitChar d) = d := by decide

/-- Value of a little-endian decimal digit string. -/
def decValLE : List Char → Nat
  | [] => 0
  | c :: cs => charDigit c + 10 * decValLE cs

/-- `decValLE` is a left inverse of `decCharsLE` (with sufficient fuel). -/
lemma decValLE_decCharsLE : ∀ fuel n, n ≤ fuel → decValLE (decCharsLE fuel n) = n := by
  intro fuel
  induction fuel with
  | zero =>
    intro n h
    cases n with
    | zero => rfl
    | succ m => omega
  | succ f ih =>
    intro n h
    cases n with
    | zero => rfl
    | succ m =>
      show decValLE (Nat.digitChar ((m + 1) % 10) :: decCharsLE f ((m + 1) / 10)) = m + 1
      simp only [decValLE]
      rw [ih ((m + 1) / 10) (by omega)]
      rw [charDigit_digitChar ((m + 1) % 10) (Nat.mod_lt _ (by omega))]
      omega

/-- The decimal representation is injective on positive numbers. -/
lemma natRepr_inj {a b : Nat} (ha : 0 < a) (hb : 0 < b)
    (h : natRepr a = natRepr b) : a = b := by
  unfold natRepr at h
  rw [if_neg (by omega), if_neg (by omega)] at h
  have hdata : (decCharsLE a a).reverse = (decCharsLE b b).reverse :=
    congrArg String.data h
  have hchars : decCharsLE a a = decCharsLE b b := by
    have := congrArg List.reverse hdata
    simpa using this
  calc a = decValLE (decCharsLE a a) := (decValLE_decCharsLE a a (Nat.le_refl a)).symm
    _ = decValLE (decCharsLE b b) := by rw [hchars]
    _ = b := decValLE_decCharsLE b b (Nat.le_refl b)

/-- The decimal representation of a positive number is a nonempty string. -/
lemma natRepr_ne_empty {a : Nat} (ha : 0 < a) : natRepr a ≠ "" := by
  cases a with
  | zero => omega
  | succ m =>
    unfold natRepr
    rw [if_neg (by omega)]
    intro h
    have hd : (decCharsLE (m + 1) (m + 1)).reverse = [] := congrArg String.data h
    rw [List.reverse_eq_nil_iff] at hd
    simp [decCharsLE] at hd

/-- The counter suffix appended to a node name at the k-th use of a role. -/
def roleSuffix (k : Nat) : String := if k = 1 then "" else natRepr k

/-- The name produced for the k-th spec of a role (k ≥ 1). -/
def encode (clusterName role : String) (k : Nat) : String :=
  clusterName ++ "-" ++ role ++ roleSuffix k

/-- The counter suffix is injective for counts ≥ 1. -/
lemma roleSuffix_inj {k1 k2 : Nat} (h1 : 1 ≤ k1) (h2 : 1 ≤ k2)
    (h : roleSuffix k1 = roleSuffix k2) : k1 = k2 := by
  unfold roleSuffix at h
  by_cases e1 : k1 = 1 <;> by_cases e2 : k2 = 1
  · omega
  · rw [if_pos e1, if_neg e2] at h
    exact absurd h.symm (natRepr_ne_empty (by omega))
  · rw [if_neg e1, if_pos e2] at h
    exact absurd h (natRepr_ne_empty (by omega))
  · rw [if_neg e1, if_neg e2] at h
    exact natRepr_inj (by omega) (by omega) h

/-- Two character lists differing at a common index stay different after
appending arbitrary tails. -/
lemma append_ne_of_getElem_ne (a b : List Char) (i : Nat) (hia : i < a.length)
    (hib : i < b.length) (hne : a[i] ≠ b[i]) (s t : List Char) :
    a ++ s ≠ b ++ t := by
  intro h
  apply hne
  have h1 : (a ++ s)[i]? = a[i]? := @List.getElem?_append_left Char a s i hia
  have h2 : (b ++ t)[i]? = b[i]? := @List.getElem?_append_left Char b t i hib
  have h3 : a[i]? = b[i]? := by rw [← h1, ← h2, h]
  rw [List.getElem?_eq_getElem hia, List.getElem?_eq_getElem hib] at h3
  exact Option.some_injective _ h3

/-- No two distinct known role strings can be made equal by appending
suffixes: none is a prefix of another (they differ at index 0 or 9). -/
lemma role_data_append_ne :
    ∀ r1 ∈ defaultRoleOrder, ∀ r2 ∈ defaultRoleOrder, r1 ≠ r2 →
      ∀ s t : List Char, r1.data ++ s ≠ r2.data ++ t := by
  intro r1 h1 r2 h2 hne s t
  fin_cases h1 <;> fin_cases h2 <;>
    first
      | exact absurd rfl hne
      | exact append_ne_of_getElem_ne _ _ 0 (by decide) (by decide) (by decide) s t
      | exact append_ne_of_getElem_ne _ _ 9 (by decide) (by decide) (by decide) s t

/-- `encode` is injective across the four known roles and counts ≥ 1. -/
lemma encode_inj (c : String) {r1 r2 : String} (h1 : r1 ∈ defaultRoleOrder)
    (h2 : r2 ∈ defaultRoleOrder) {k1 k2 : Nat} (hk1 : 1 ≤ k1) (hk2 : 1 ≤ k2)
    (h : encode c r1 k1 = encode c r2 k2) : r1 = r2 ∧ k1 = k2 := by
  by_cases hr : r1 = r2
  · subst hr
    refine ⟨rfl, ?_⟩
    unfold encode at h
    have hd := congrArg String.data h
    simp only [String.data_append] at hd
    have hs := List.append_cancel_left hd
    exact roleSuffix_inj hk1 hk2 (String.ext hs)
  · exfalso
    unfold encode at h
    have hd := congrArg String.data h
    simp only [String.data_append] at hd
    rw [List.append_assoc (c.data ++ "-".data) r1.data,
      List.append_assoc (c.data ++ "-".data) r2.data] at hd
    have := List.append_cancel_left hd
    exact role_data_append_ne r1 h1 r2 h2 hr _ _ this

/-- The name returned by one namer call is the encoding of the role with the
incremented per-role count. -/
lemma nameNodeGo_name (c : String) (counter : String → Nat) (role : String) :
    (nameNodeGo c counter role).1 = encode c role (1 + counter role) := by
  simp only [nameNodeGo, encode, roleSuffix]
  by_cases hp : counter role = 0
  · simp [hp]
  · rw [if_neg hp, if_neg (show ¬(1 + counter role = 1) by omega)]

/-- One namer call never decreases any per-role count. -/
lemma nameNodeGo_counter_le (c : String) (counter : String → Nat)
    (role r : String) : counter r ≤ (nameNodeGo c counter role).2 r := by
  unfold nameNodeGo
  by_cases h : r = role
  · subst h; simp
  · simp [h]

/-- One namer call increments the count of its own role. -/
lemma nameNodeGo_counter_self (c : String) (counter : String → Nat)
    (role : String) : (nameNodeGo c counter role).2 role = 1 + counter role := by
  simp [nameNodeGo]

/-- Every spec produced by the naming loop carries its config node's role and
a name encoding that role with a count strictly above the entry counter. -/
lemma buildSpecs_name_shape (clusterName : String) :
    ∀ (ns : List ConfigNode) (counter : String → Nat) (s : nodeSpec),
      s ∈ buildSpecs clusterName counter ns →
      s.Role ∈ ns.map ConfigNode.role ∧
      ∃ k, counter s.Role < k ∧ s.Name = encode clusterName s.Role k := by
  intro ns
  induction ns with
  | nil => intro counter s h; simp [buildSpecs] at h
  | cons n rest ih =>
    intro counter s h
    simp only [buildSpecs] at h
    rcases List.mem_cons.mp h with hhead | htail
    · subst hhead
      refine ⟨by simp, 1 + counter n.role, ?_, ?_⟩
      · show counter n.role < 1 + counter n.role
        omega
      · show (nameNodeGo clusterName counter n.role).1 =
          encode clusterName n.role (1 + counter n.role)
        exact nameNodeGo_name clusterName counter n.role
    · obtain ⟨hrole, k, hk, hname⟩ :=
        ih (nameNodeGo clusterName counter n.role).2 s htail
      refine ⟨by simpa using Or.inr hrole, k, ?_, hname⟩
      exact Nat.lt_of_le_of_lt
        (nameNodeGo_counter_le clusterName counter n.role s.Role) hk

/-- Names produced by the naming loop are pairwise distinct when every role
is one of the four known role values. -/
lemma buildSpecs_names_distinct (clusterName : String) :
    ∀ (ns : List ConfigNode) (counter : String → Nat),
      (∀ n ∈ ns, n.role ∈ defaultRoleOrder) →
      ((buildSpecs clusterName counter ns).map nodeSpec.Name).Pairwise (· ≠ ·) := by
  intro ns
  induction ns with
  | nil => intro counter _; simp [buildSpecs]
  | cons n rest ih =>
    intro counter hroles
    simp only [buildSpecs, List.map_cons]
    rw [List.pairwise_cons]
    constructor
    · intro y hy
      obtain ⟨s, hs, rfl⟩ := List.mem_map.mp hy
      obtain ⟨hrole, k, hk, hname⟩ :=
        buildSpecs_name_shape clusterName rest
          (nameNodeGo clusterName counter n.role).2 s hs
      rw [nameNodeGo_name clusterName counter n.role, hname]
      intro heq
      have hn_mem : n.role ∈ defaultRoleOrder :=
        hroles n (List.mem_cons_self n rest)
      have hs_mem : s.Role ∈ defaultRoleOrder := by
        obtain ⟨m, hm, hrm⟩ := List.mem_map.mp hrole
        rw [← hrm]
        exact hroles m (List.mem_cons_of_mem n hm)
      obtain ⟨hr_eq, hk_eq⟩ :=
        encode_inj clusterName hn_mem hs_mem (by omega) (by omega) heq
      rw [← hr_eq, nameNodeGo_counter_self clusterName counter n.role] at hk
      omega
    · exact ih (nameNodeGo clusterName counter n.role).2
        (fun m hm => hroles m (List.mem_cons_of_mem n hm))

/-- A configuration that breaks name uniqueness: two "worker" entries plus an
entry with the unknown role "worker2". -/
def collidingConfig : Config :=
  ⟨[⟨WorkerNodeRoleValue, "img", [], none⟩,
    ⟨WorkerNodeRoleValue, "img", [], none⟩,
    ⟨"worker2", "img", [], none⟩]⟩

/-- Counterexample for C8: with the role string "worker2" in the
configuration, the name assigned to the second "worker" spec and the name
assigned to the "worker2" spec coincide, so the produced names are not
pairwise distinct. -/
theorem nodes_to_create_duplicate_names :
    (nodesToCreate collidingConfig "kind").map nodeSpec.Name =
      ["kind-worker", "kind-worker2", "kind-worker2"] ∧
    ¬ ((nodesToCreate collidingConfig "kind").map nodeSpec.Name).Pairwise (· ≠ ·) := by
  have hnames : (nodesToCreate collidingConfig "kind").map nodeSpec.Name =
      ["kind-worker", "kind-worker2", "kind-worker2"] := rfl
  refine ⟨hnames, ?_⟩
  rw [hnames]
  intro h
  exact absurd rfl ((List.pairwise_cons.mp (List.pairwise_cons.mp h).2).1
    "kind-worker2" (List.mem_cons_self _ _))

/-- Claim C8 as amended: for every configuration whose node roles are all
among the four known role values, the names assigned by `nodesToCreate` are
pairwise distinct within one provisioning run. -/
theorem nodes_to_create_names_distinct (cfg : Config) (clusterName : String)
    (hroles : ∀ n ∈ cfg.nodes, n.role ∈ defaultRoleOrder) :
    ((nodesToCreate cfg clusterName).map nodeSpec.Name).Pairwise (· ≠ ·) := by
  unfold nodesToCreate
  apply buildSpecs_names_distinct
  intro n hn
  have hn' : n ∈ convertReplicas cfg.nodes := by
    unfold sortNodes at hn
    rw [List.mem_insertionSort] at hn
    exact hn
  rw [convertReplicas_eq_flatMap] at hn'
  simp only [List.mem_flatMap, List.mem_replicate] at hn'
  obtain ⟨m, hm, -, rfl⟩ := hn'
  exact hroles m hm

/-- Witness for the amended C8 at a concrete known-roles configuration. -/
theorem nodes_to_create_names_distinct_witness :
    ((nodesToCreate ⟨sampleNodes⟩ "kind").map nodeSpec.Name).Pairwise (· ≠ ·) :=
  nodes_to_create_names_distinct ⟨sampleNodes⟩ "kind" (by decide)

end KindCreate
